import Mathlib

/-!
Shallow embedding of the Connect 4 on Steroids repository, for checking the
natural-language specification against the code.

The repository ships two executable layers:
  * the RabbitMQ demo simulation (the games driven by `createGameRoom`,
    `makeMove`, `getNextPlayer`, `usePowerUp`, `checkGameOver`; the same
    functions appear verbatim in both simulation scripts), and
  * the React frontend (`useGame.ts` with its `makeMove` / `usePowerUp`
    callbacks and `WebSocketService.ts` with `send`).
Wall-clock reads (`Date.now()`) are threaded as explicit `now` arguments, and
each call to `Math.random()` is threaded as an explicit argument holding the
drawn value, so every function below is a pure translation of the source.
-/

namespace Connect4

/-- A player record of the demo simulation (`createGameRoom` builds these from
an index: opaque id, display name, color from the fixed palette). -/
structure Player where
  id : String
  name : String
  color : String
deriving DecidableEq

/-- Game-room state of the demo simulation, as built by `createGameRoom`:
players in seating order, the current turn holder id, the seven column stacks
(each a list of owning player ids, bottom to top), and the bookkeeping
fields the scripts maintain.  Timestamps are plain naturals. -/
structure Game where
  roomId : String
  players : List Player
  currentTurn : String
  turnTimeLimit : Nat
  isActive : Bool
  board : List (List String)
  startTime : Nat
  lastEventTime : Nat
  eventCount : Nat
  gameOver : Bool
deriving DecidableEq

/-- JS `Array.prototype.findIndex` specialised to matching a player id: the
index of the first player whose id equals `pid`, or `-1` when absent. -/
def findIndexById (ps : List Player) (pid : String) : Int :=
  match ps with
  | [] => -1
  | p :: rest =>
    if p.id = pid then 0
    else
      let r := findIndexById rest pid
      if r = -1 then -1 else r + 1

/-- The body of the demo function `getNextPlayer`, with its two reads of the
game record (the player list and the current turn holder) made explicit so the
computation can be iterated: find the index of the current turn holder, add
one modulo the number of players, and return that player id.  (On an empty
player list the out-of-range JS access is modelled by a default id.) -/
def nextIdOf (ps : List Player) (currentTurn : String) : String :=
  let currentIndex := findIndexById ps currentTurn
  let nextIndex := (currentIndex + 1) % (ps.length : Int)
  ((ps.get? nextIndex.toNat).getD ⟨"", "", ""⟩).id

/-- `getNextPlayer(game)` from the demo simulation. -/
def getNextPlayer (g : Game) : String :=
  nextIdOf g.players g.currentTurn

/-- The `{column, row}` object returned by a successful demo `makeMove`. -/
structure MoveRes where
  column : Nat
  row : Nat
deriving DecidableEq

/-- `makeMove(game, playerId, column)` from the demo simulation: read the
addressed column stack; if it already holds 6 discs return `null` and leave
the game untouched; otherwise push the player id on the stack, hand the turn
to the next player, stamp the event time and count, and report the occupied
`(column, row)` with the row equal to the stack length before the push.  The
demo only ever addresses columns 0 through 6 of its 7-column board, so the JS
array growth at a larger index is not modelled. -/
def makeMove (g : Game) (playerId : String) (column : Nat) (now : Nat) :
    Option MoveRes × Game :=
  let stack := g.board.getD column []
  let row := stack.length
  if row ≥ 6 then
    (none, g)
  else
    (some ⟨column, row⟩,
      { g with
          board := g.board.set column (stack ++ [playerId])
          currentTurn := getNextPlayer g
          lastEventTime := now
          eventCount := g.eventCount + 1 })

/-- The five power-up kinds of `POWER_UP_TYPES`. -/
inductive PUKind where
  | double_drop
  | column_bomb
  | gravity_flip
  | undo_move
  | column_block
deriving DecidableEq

/-- The `effect` object assembled by the demo `usePowerUp`.  JS object fields
that a branch leaves absent are `none` / `false` here, matching their falsy
reads downstream. -/
structure Effect where
  drop1 : Option MoveRes := none
  drop2 : Option MoveRes := none
  bombed : Bool := false
  flipped : Bool := false
  undone : Bool := false
  blocked : Bool := false
  column : Option Nat := none
deriving DecidableEq

/-- The `{powerUpId, effect}` result of the demo `usePowerUp`. -/
structure PowerUpRes where
  powerUpId : PUKind
  effect : Effect
deriving DecidableEq

/-- `usePowerUp(game, playerId)` from the demo simulation.  The function draws
its power-up kind and every target column with `Math.random()`; those draws
are the explicit arguments `powerUpId`, `targetColumn`, `col1`, `col2` and
`randomCol` (each drawn in 0 through 6).  `double_drop` simply performs two
`makeMove` calls in sequence; `column_bomb` empties the target column;
`undo_move` pops the chosen column when non-empty and otherwise leaves the
effect object empty; `gravity_flip` and `column_block` touch no shard state.
After the switch the event time and count are always updated. -/
def usePowerUp (g : Game) (playerId : String) (powerUpId : PUKind)
    (targetColumn col1 col2 randomCol : Nat) (now : Nat) :
    PowerUpRes × Game :=
  match powerUpId with
  | .double_drop =>
    let r1 := makeMove g playerId col1 now
    let r2 := makeMove r1.2 playerId col2 now
    (⟨.double_drop, { drop1 := r1.1, drop2 := r2.1 }⟩,
      { r2.2 with lastEventTime := now, eventCount := r2.2.eventCount + 1 })
  | .column_bomb =>
    (⟨.column_bomb, { bombed := true, column := some targetColumn }⟩,
      { g with
          board := g.board.set targetColumn []
          lastEventTime := now
          eventCount := g.eventCount + 1 })
  | .gravity_flip =>
    (⟨.gravity_flip, { flipped := true }⟩,
      { g with lastEventTime := now, eventCount := g.eventCount + 1 })
  | .undo_move =>
    let stack := g.board.getD randomCol []
    if 0 < stack.length then
      (⟨.undo_move, { undone := true, column := some randomCol }⟩,
        { g with
            board := g.board.set randomCol stack.dropLast
            lastEventTime := now
            eventCount := g.eventCount + 1 })
    else
      (⟨.undo_move, {}⟩,
        { g with lastEventTime := now, eventCount := g.eventCount + 1 })
  | .column_block =>
    (⟨.column_block, { blocked := true, column := some targetColumn }⟩,
      { g with lastEventTime := now, eventCount := g.eventCount + 1 })

/-- The `{winner, winType, positions}` record returned by the simulation when
it declares a game over. -/
structure WinRec where
  winner : String
  winType : String
  positions : List (Nat × Nat)
deriving DecidableEq

/-- `checkGameOver(game)` from the continuous simulation: once more than 30
events have happened (or five minutes have passed) it fabricates a game-over
record — a randomly drawn winner, a randomly drawn win type, and four
positions laid out from a random start cell in the direction belonging to the
declared type — and marks the game over.  The draws are the explicit
arguments `winnerIdx` (0 through players-1), `winTypeIdx` (0 through 3),
`startCol` (0 through 3) and `startRow` (0 through 2). -/
def checkGameOver (g : Game) (now winnerIdx winTypeIdx startCol startRow : Nat) :
    Option WinRec × Game :=
  if g.eventCount > 30 ∨ now - g.startTime > 5 * 60 * 1000 then
    let winner := (g.players.get? winnerIdx).getD ⟨"", "", ""⟩
    let winType :=
      (["horizontal", "vertical", "diagonal_rising", "diagonal_falling"]).getD
        winTypeIdx ""
    let positions := (List.range 4).map fun i =>
      if winType = "horizontal" then (startCol + i, startRow)
      else if winType = "vertical" then (startCol, startRow + i)
      else if winType = "diagonal_rising" then (startCol + i, startRow + 3 - i)
      else (startCol + i, startRow + i)
    (some ⟨winner.id, winType, positions⟩, { g with gameOver := true })
  else
    (none, g)

/-- The disc recorded at `(column, row)` of a demo board, if that cell is
occupied (`game.board[column][row]`). -/
def cellOwner (g : Game) (column row : Nat) : Option String :=
  (g.board.getD column []).get? row

/-- One externally triggered mutation of a demo game, together with the
random draws and the timestamp the script would have used for it. -/
inductive Op where
  | move (playerId : String) (column : Nat) (now : Nat)
  | power (playerId : String) (powerUpId : PUKind)
      (targetColumn col1 col2 randomCol : Nat) (now : Nat)
  | gameOverCheck (now winnerIdx winTypeIdx startCol startRow : Nat)
deriving DecidableEq

/-- Apply one simulation operation to a game. -/
def applyOp (g : Game) : Op → Game
  | .move pid col now => (makeMove g pid col now).2
  | .power pid k tc c1 c2 rc now => (usePowerUp g pid k tc c1 c2 rc now).2
  | .gameOverCheck now wi wt sc sr => (checkGameOver g now wi wt sc sr).2

/-- Apply a sequence of simulation operations, left to right. -/
def applyOps (g : Game) (ops : List Op) : Game :=
  ops.foldl applyOp g

/-- Capacity invariant of the spec: every column stack holds at most 6
discs.  Columns beyond the board list read as empty. -/
def ColumnsOK (g : Game) : Prop :=
  ∀ c, (g.board.getD c []).length ≤ 6

/-- Reading column `c` after overwriting column `i`. -/
theorem getD_set {α : Type} (l : List α) (i c : Nat) (v d : α) :
    (l.set i v).getD c d =
      if i = c ∧ i < l.length then v else l.getD c d := by
  induction l generalizing i c with
  | nil => simp
  | cons a t ih =>
    cases i with
    | zero =>
      cases c with
      | zero => simp
      | succ c => simp [List.getD]
    | succ i =>
      cases c with
      | zero => simp [List.getD]
      | succ c =>
        simp only [List.set, List.getD_cons_succ, ih, List.length_cons,
          add_left_inj, Nat.add_lt_add_iff_right]

/-- `ColumnsOK` only depends on the stacks actually stored on the board. -/
theorem columnsOK_iff (g : Game) :
    ColumnsOK g ↔ ∀ s ∈ g.board, s.length ≤ 6 := by
  constructor
  · intro h s hs
    obtain ⟨⟨i, hi⟩, rfl⟩ := List.mem_iff_get.mp hs
    have hc := h i
    rwa [List.getD_eq_get?, List.get?_eq_get hi, Option.getD_some] at hc
  · intro h c
    rw [List.getD_eq_get?]
    cases hc : g.board.get? c with
    | none => simp
    | some s =>
      simpa using h s (List.get?_mem hc)

instance : DecidablePred ColumnsOK := fun g =>
  decidable_of_iff _ (columnsOK_iff g).symm

/-- Overwriting one column with a stack of at most 6 discs preserves the
capacity invariant of a board. -/
theorem columnsOK_set (l : List (List String)) (i : Nat) (v : List String)
    (hv : v.length ≤ 6) (h : ∀ c, (l.getD c []).length ≤ 6) :
    ∀ c, ((l.set i v).getD c []).length ≤ 6 := by
  intro c
  rw [getD_set]
  split
  · exact hv
  · exact h c

/-- Unfolding of `makeMove` on a full column. -/
theorem makeMove_full (g : Game) (pid : String) (col now : Nat)
    (h : (g.board.getD col []).length ≥ 6) :
    makeMove g pid col now = (none, g) := by
  simp only [makeMove]
  rw [if_pos h]

/-- Unfolding of `makeMove` on a column with remaining space. -/
theorem makeMove_space (g : Game) (pid : String) (col now : Nat)
    (h : ¬ (g.board.getD col []).length ≥ 6) :
    makeMove g pid col now =
      (some ⟨col, (g.board.getD col []).length⟩,
        { g with
            board := g.board.set col (g.board.getD col [] ++ [pid])
            currentTurn := getNextPlayer g
            lastEventTime := now
            eventCount := g.eventCount + 1 }) := by
  simp only [makeMove]
  rw [if_neg h]

/-- Unfolding of `usePowerUp` in the `double_drop` branch: it is exactly two
sequential `makeMove` calls. -/
theorem usePowerUp_double_drop_eq (g : Game) (pid : String)
    (tc c1 c2 rc now : Nat) :
    usePowerUp g pid .double_drop tc c1 c2 rc now =
      (⟨.double_drop,
          { drop1 := (makeMove g pid c1 now).1,
            drop2 := (makeMove (makeMove g pid c1 now).2 pid c2 now).1 }⟩,
        { (makeMove (makeMove g pid c1 now).2 pid c2 now).2 with
            lastEventTime := now
            eventCount :=
              (makeMove (makeMove g pid c1 now).2 pid c2 now).2.eventCount + 1 }) :=
  rfl

/-- Unfolding of `usePowerUp` in the `column_bomb` branch. -/
theorem usePowerUp_column_bomb_eq (g : Game) (pid : String)
    (tc c1 c2 rc now : Nat) :
    usePowerUp g pid .column_bomb tc c1 c2 rc now =
      (⟨.column_bomb, { bombed := true, column := some tc }⟩,
        { g with
            board := g.board.set tc []
            lastEventTime := now
            eventCount := g.eventCount + 1 }) :=
  rfl

/-- Unfolding of `usePowerUp` in the `gravity_flip` branch. -/
theorem usePowerUp_gravity_flip_eq (g : Game) (pid : String)
    (tc c1 c2 rc now : Nat) :
    usePowerUp g pid .gravity_flip tc c1 c2 rc now =
      (⟨.gravity_flip, { flipped := true }⟩,
        { g with lastEventTime := now, eventCount := g.eventCount + 1 }) :=
  rfl

/-- Unfolding of `usePowerUp` in the `column_block` branch. -/
theorem usePowerUp_column_block_eq (g : Game) (pid : String)
    (tc c1 c2 rc now : Nat) :
    usePowerUp g pid .column_block tc c1 c2 rc now =
      (⟨.column_block, { blocked := true, column := some tc }⟩,
        { g with lastEventTime := now, eventCount := g.eventCount + 1 }) :=
  rfl

/-- Unfolding of `usePowerUp` in the `undo_move` branch on a non-empty
column. -/
theorem usePowerUp_undo_pop_eq (g : Game) (pid : String)
    (tc c1 c2 rc now : Nat) (h : 0 < (g.board.getD rc []).length) :
    usePowerUp g pid .undo_move tc c1 c2 rc now =
      (⟨.undo_move, { undone := true, column := some rc }⟩,
        { g with
            board := g.board.set rc (g.board.getD rc []).dropLast
            lastEventTime := now
            eventCount := g.eventCount + 1 }) := by
  simp only [usePowerUp]
  rw [if_pos h]

/-- Unfolding of `usePowerUp` in the `undo_move` branch on an empty column. -/
theorem usePowerUp_undo_noop_eq (g : Game) (pid : String)
    (tc c1 c2 rc now : Nat) (h : ¬ 0 < (g.board.getD rc []).length) :
    usePowerUp g pid .undo_move tc c1 c2 rc now =
      (⟨.undo_move, {}⟩,
        { g with lastEventTime := now, eventCount := g.eventCount + 1 }) := by
  simp only [usePowerUp]
  rw [if_neg h]

/-- `makeMove` preserves the capacity invariant. -/
theorem columnsOK_makeMove (g : Game) (pid : String) (col now : Nat)
    (h : ColumnsOK g) : ColumnsOK (makeMove g pid col now).2 := by
  by_cases hfull : (g.board.getD col []).length ≥ 6
  · rw [makeMove_full g pid col now hfull]
    exact h
  · rw [makeMove_space g pid col now hfull]
    intro c
    exact columnsOK_set _ _ _
      (by rw [List.length_append, List.length_singleton]; omega) h c

/-- `usePowerUp` preserves the capacity invariant: a double drop is two
`makeMove`s, a bomb empties a column, an undo shortens one, and the other
kinds leave the board alone. -/
theorem columnsOK_usePowerUp (g : Game) (pid : String) (k : PUKind)
    (tc c1 c2 rc now : Nat) (h : ColumnsOK g) :
    ColumnsOK (usePowerUp g pid k tc c1 c2 rc now).2 := by
  cases k with
  | double_drop =>
    have h2 := columnsOK_makeMove _ pid c2 now (columnsOK_makeMove g pid c1 now h)
    rw [usePowerUp_double_drop_eq]
    exact h2
  | column_bomb =>
    rw [usePowerUp_column_bomb_eq]
    intro c
    exact columnsOK_set _ _ _ (by simp) h c
  | gravity_flip =>
    rw [usePowerUp_gravity_flip_eq]
    exact h
  | undo_move =>
    by_cases hne : 0 < (g.board.getD rc []).length
    · rw [usePowerUp_undo_pop_eq g pid tc c1 c2 rc now hne]
      intro c
      refine columnsOK_set _ _ _ ?_ h c
      calc (g.board.getD rc []).dropLast.length
          ≤ (g.board.getD rc []).length := by
            rw [List.length_dropLast]; omega
        _ ≤ 6 := h rc
    · rw [usePowerUp_undo_noop_eq g pid tc c1 c2 rc now hne]
      exact h
  | column_block =>
    rw [usePowerUp_column_block_eq]
    exact h

/-- `checkGameOver` never touches the board. -/
theorem board_checkGameOver (g : Game) (now wi wt sc sr : Nat) :
    (checkGameOver g now wi wt sc sr).2.board = g.board := by
  by_cases hc : g.eventCount > 30 ∨ now - g.startTime > 5 * 60 * 1000 <;>
    simp [checkGameOver, hc]

/-- Every demo operation preserves the capacity invariant. -/
theorem columnsOK_applyOp (g : Game) (op : Op) (h : ColumnsOK g) :
    ColumnsOK (applyOp g op) := by
  cases op with
  | move pid col now => exact columnsOK_makeMove g pid col now h
  | power pid k tc c1 c2 rc now => exact columnsOK_usePowerUp g pid k tc c1 c2 rc now h
  | gameOverCheck now wi wt sc sr =>
    intro c
    simp only [applyOp]
    rw [board_checkGameOver]
    exact h c

/-- Players used by the concrete test games below. -/
def pA : Player := ⟨"p1", "Player 1", "red"⟩

def pB : Player := ⟨"p2", "Player 2", "yellow"⟩

def pC : Player := ⟨"p3", "Player 3", "green"⟩

/-- A demo game with the given board, turn holder, players and event count,
all other fields as `createGameRoom` initialises them. -/
def demoGame (board : List (List String)) (ct : String)
    (players : List Player) (ec : Nat) : Game :=
  ⟨"room_demo", players, ct, 30, true, board, 0, 0, ec, false⟩

/-- A fresh two-player demo game with an empty 7-column board. -/
def gEmpty : Game := demoGame [[], [], [], [], [], [], []] "p1" [pA, pB] 0

/-- A two-player demo game whose column 2 is full (6 discs). -/
def gFullCol2 : Game :=
  demoGame [[], [], ["p1", "p2", "p1", "p2", "p1", "p2"], [], [], [], []]
    "p1" [pA, pB] 0

/-- C1: starting from any demo game satisfying the 6-disc capacity invariant,
every sequence of simulation operations preserves it, and a `makeMove`
addressed to a column whose stack already holds 6 discs returns `null` and
leaves the game — in particular the board — exactly as it was, so a full
column is never silently overwritten. -/
theorem capacity_invariant_and_full_column_drop (g : Game) (h : ColumnsOK g) :
    (∀ ops : List Op, ColumnsOK (applyOps g ops)) ∧
    (∀ pid col now, (g.board.getD col []).length = 6 →
      (makeMove g pid col now).1 = none ∧ (makeMove g pid col now).2 = g) := by
  constructor
  · intro ops
    rw [applyOps]
    induction ops generalizing g with
    | nil => exact h
    | cons op rest ih =>
      exact ih _ (columnsOK_applyOp g op h)
  · intro pid col now hfull
    rw [makeMove_full g pid col now (by omega)]
    exact ⟨rfl, rfl⟩

/-- C1 witness: the invariant-preservation part evaluated on a fresh game and
a short operation sequence, and the full-column part on a game whose
column 2 is full. -/
theorem capacity_invariant_and_full_column_drop_witness :
    ColumnsOK gEmpty ∧
    ColumnsOK (applyOps gEmpty
      [Op.move "p1" 3 5, Op.power "p2" PUKind.double_drop 0 3 3 0 6]) ∧
    ColumnsOK gFullCol2 ∧
    (makeMove gFullCol2 "p1" 2 9).1 = none ∧
    (makeMove gFullCol2 "p1" 2 9).2 = gFullCol2 := by
  refine ⟨by decide, ?_, by decide, ?_, ?_⟩
  · exact (capacity_invariant_and_full_column_drop gEmpty (by decide)).1 _
  · exact ((capacity_invariant_and_full_column_drop gFullCol2 (by decide)).2
      "p1" 2 9 (by decide)).1
  · exact ((capacity_invariant_and_full_column_drop gFullCol2 (by decide)).2
      "p1" 2 9 (by decide)).2

/-- C8: a `makeMove` addressed to a column with fewer than 6 discs appends
exactly one disc owned by the moving player on top of that column and reports
the newly occupied row, which is the stack length before the insertion
(0-indexed from the bottom); every other column is untouched. -/
theorem drop_appends_and_returns_row (g : Game) (pid : String) (col now : Nat)
    (hcol : col < g.board.length)
    (h : (g.board.getD col []).length < 6) :
    (makeMove g pid col now).1 = some ⟨col, (g.board.getD col []).length⟩ ∧
    (makeMove g pid col now).2.board.getD col [] = g.board.getD col [] ++ [pid] ∧
    ∀ c, c ≠ col →
      (makeMove g pid col now).2.board.getD c [] = g.board.getD c [] := by
  rw [makeMove_space g pid col now (by omega)]
  refine ⟨rfl, ?_, ?_⟩
  · show (g.board.set col (g.board.getD col [] ++ [pid])).getD col [] = _
    rw [getD_set, if_pos ⟨rfl, hcol⟩]
  · intro c hc
    show (g.board.set col (g.board.getD col [] ++ [pid])).getD c [] = _
    rw [getD_set, if_neg (by rintro ⟨rfl, -⟩; exact hc rfl)]

/-- C8 witness: dropping into empty column 3 of a fresh game lands at row 0
and leaves column 0 empty. -/
theorem drop_appends_and_returns_row_witness :
    (makeMove gEmpty "p1" 3 5).1 = some ⟨3, 0⟩ ∧
    (makeMove gEmpty "p1" 3 5).2.board.getD 3 [] = [] ++ ["p1"] ∧
    (makeMove gEmpty "p1" 3 5).2.board.getD 0 [] = [] := by
  have h := drop_appends_and_returns_row gEmpty "p1" 3 5 (by decide) (by decide)
  exact ⟨h.1, h.2.1, h.2.2 0 (by decide)⟩

/-- C9: the demo `undo_move` pops exactly the top (last-pushed) disc of the
drawn column when that column is non-empty, reporting a truthy `undone`
effect, and is a board no-op with an empty effect object (so the `undone`
read is falsy) when the column is empty; all other columns are unchanged in
both cases. -/
theorem undo_move_pops_top (g : Game) (pid : String) (tc c1 c2 rc now : Nat)
    (hrc : rc < g.board.length) :
    (0 < (g.board.getD rc []).length →
      (usePowerUp g pid .undo_move tc c1 c2 rc now).1.effect.undone = true ∧
      (usePowerUp g pid .undo_move tc c1 c2 rc now).2.board.getD rc []
        = (g.board.getD rc []).dropLast ∧
      ∀ c, c ≠ rc →
        (usePowerUp g pid .undo_move tc c1 c2 rc now).2.board.getD c []
          = g.board.getD c []) ∧
    ((g.board.getD rc []).length = 0 →
      (usePowerUp g pid .undo_move tc c1 c2 rc now).1.effect.undone = false ∧
      (usePowerUp g pid .undo_move tc c1 c2 rc now).2.board = g.board) := by
  constructor
  · intro hpos
    rw [usePowerUp_undo_pop_eq g pid tc c1 c2 rc now hpos]
    refine ⟨rfl, ?_, ?_⟩
    · show (g.board.set rc (g.board.getD rc []).dropLast).getD rc [] = _
      rw [getD_set, if_pos ⟨rfl, hrc⟩]
    · intro c hc
      show (g.board.set rc (g.board.getD rc []).dropLast).getD c [] = _
      rw [getD_set, if_neg (by rintro ⟨rfl, -⟩; exact hc rfl)]
  · intro hz
    rw [usePowerUp_undo_noop_eq g pid tc c1 c2 rc now (by omega)]
    exact ⟨rfl, rfl⟩

/-- C9 witness: undoing on the full column 2 pops its top disc, undoing on
the empty column 0 changes nothing and reports a falsy effect. -/
theorem undo_move_pops_top_witness :
    (usePowerUp gFullCol2 "p1" .undo_move 0 0 0 2 1).1.effect.undone = true ∧
    (usePowerUp gFullCol2 "p1" .undo_move 0 0 0 2 1).2.board.getD 2 []
      = ["p1", "p2", "p1", "p2", "p1"] ∧
    (usePowerUp gFullCol2 "p1" .undo_move 0 0 0 0 1).1.effect.undone = false ∧
    (usePowerUp gFullCol2 "p1" .undo_move 0 0 0 0 1).2.board
      = gFullCol2.board := by
  have h1 := undo_move_pops_top gFullCol2 "p1" 0 0 0 2 1 (by decide)
  have h2 := undo_move_pops_top gFullCol2 "p1" 0 0 0 0 1 (by decide)
  refine ⟨(h1.1 (by decide)).1, ?_, (h2.2 (by decide)).1, (h2.2 (by decide)).2⟩
  rw [(h1.1 (by decide)).2.1]
  decide

/-- C2 counterexample: in the game `gFullCol2` column 2 is full and column 0
is empty, yet `double_drop` targeting columns 0 and 2 commits the first
sub-drop (column 0 receives a disc and the effect reports it) while the
second sub-drop fails, so the board is not left unchanged — the operation is
not all-or-nothing. -/
theorem double_drop_not_atomic_counterexample :
    (gFullCol2.board.getD 2 []).length = 6 ∧
    (usePowerUp gFullCol2 "p1" PUKind.double_drop 0 0 2 0 1).1.effect.drop1
      = some ⟨0, 0⟩ ∧
    (usePowerUp gFullCol2 "p1" PUKind.double_drop 0 0 2 0 1).1.effect.drop2
      = none ∧
    (usePowerUp gFullCol2 "p1" PUKind.double_drop 0 0 2 0 1).2.board.getD 0 []
      = ["p1"] ∧
    (usePowerUp gFullCol2 "p1" PUKind.double_drop 0 0 2 0 1).2.board
      ≠ gFullCol2.board := by
  decide

/-- C2 amended: `double_drop` performs its two sub-drops sequentially and
independently, with no prior validation: when the first target column has
space and the second is full, the first sub-drop is committed (the disc is
appended and reported) while the second is skipped and reported `null`; the
full column itself is unchanged. -/
theorem double_drop_partial_commit (g : Game) (pid : String)
    (tc c1 c2 rc now : Nat) (hc1 : c1 < g.board.length)
    (h1 : (g.board.getD c1 []).length < 6)
    (h2 : (g.board.getD c2 []).length = 6) (hne : c1 ≠ c2) :
    (usePowerUp g pid .double_drop tc c1 c2 rc now).1.effect.drop1
      = some ⟨c1, (g.board.getD c1 []).length⟩ ∧
    (usePowerUp g pid .double_drop tc c1 c2 rc now).1.effect.drop2 = none ∧
    (usePowerUp g pid .double_drop tc c1 c2 rc now).2.board.getD c1 []
      = g.board.getD c1 [] ++ [pid] ∧
    (usePowerUp g pid .double_drop tc c1 c2 rc now).2.board.getD c2 []
      = g.board.getD c2 [] := by
  have hb2 : (g.board.set c1 (g.board.getD c1 [] ++ [pid])).getD c2 []
      = g.board.getD c2 [] := by
    rw [getD_set, if_neg (by rintro ⟨rfl, -⟩; exact hne rfl)]
  rw [usePowerUp_double_drop_eq, makeMove_space g pid c1 now (by omega)]
  rw [makeMove_full _ pid c2 now
    (show ((g.board.set c1 (g.board.getD c1 [] ++ [pid])).getD c2 []).length ≥ 6
      by rw [hb2]; omega)]
  refine ⟨rfl, rfl, ?_, ?_⟩
  · show (g.board.set c1 (g.board.getD c1 [] ++ [pid])).getD c1 [] = _
    rw [getD_set, if_pos ⟨rfl, hc1⟩]
  · exact hb2

/-- C2 witness for the amended statement, on `gFullCol2` with targets 0
(empty) and 2 (full). -/
theorem double_drop_partial_commit_witness :
    (usePowerUp gFullCol2 "p1" .double_drop 0 0 2 0 1).1.effect.drop1
      = some ⟨0, 0⟩ ∧
    (usePowerUp gFullCol2 "p1" .double_drop 0 0 2 0 1).1.effect.drop2 = none ∧
    (usePowerUp gFullCol2 "p1" .double_drop 0 0 2 0 1).2.board.getD 0 []
      = [] ++ ["p1"] ∧
    (usePowerUp gFullCol2 "p1" .double_drop 0 0 2 0 1).2.board.getD 2 []
      = gFullCol2.board.getD 2 [] :=
  double_drop_partial_commit gFullCol2 "p1" 0 0 2 0 1 (by decide) (by decide)
    (by decide) (by decide)

/-- C4 counterexample: a `column_bomb` power-up use in the demo succeeds (its
effect reports the bombed column) yet `currentTurn` is left unchanged — the
turn is advanced zero times, not exactly once, and the demo tracks no
inventory to decrement. -/
theorem power_up_turn_counterexample :
    (usePowerUp gEmpty "p1" PUKind.column_bomb 2 0 0 0 1).1.effect.bombed
      = true ∧
    (usePowerUp gEmpty "p1" PUKind.column_bomb 2 0 0 0 1).2.currentTurn
      = gEmpty.currentTurn := by
  decide

/-- C4 amended: a demo power-up use advances `currentTurn` only through the
sub-drops of `double_drop` — `column_bomb`, `gravity_flip`, `undo_move` and
`column_block` leave the turn holder unchanged, and `double_drop` advances it
once per successful sub-drop: zero times when both target columns are full,
once when exactly one sub-drop lands (whichever of the two it is), twice
when both land.  A failed first sub-drop leaves the game untouched, so the
second sub-drop then acts on the original game. -/
theorem power_up_turn_advancement (g : Game) (pid : String)
    (tc c1 c2 rc now : Nat) :
    ((usePowerUp g pid .column_bomb tc c1 c2 rc now).2.currentTurn
        = g.currentTurn ∧
      (usePowerUp g pid .gravity_flip tc c1 c2 rc now).2.currentTurn
        = g.currentTurn ∧
      (usePowerUp g pid .undo_move tc c1 c2 rc now).2.currentTurn
        = g.currentTurn ∧
      (usePowerUp g pid .column_block tc c1 c2 rc now).2.currentTurn
        = g.currentTurn) ∧
    ((g.board.getD c1 []).length ≥ 6 → (g.board.getD c2 []).length ≥ 6 →
      (usePowerUp g pid .double_drop tc c1 c2 rc now).2.currentTurn
        = g.currentTurn) ∧
    ((g.board.getD c1 []).length < 6 →
      ((makeMove g pid c1 now).2.board.getD c2 []).length ≥ 6 →
      (usePowerUp g pid .double_drop tc c1 c2 rc now).2.currentTurn
        = getNextPlayer g) ∧
    ((g.board.getD c1 []).length ≥ 6 → (g.board.getD c2 []).length < 6 →
      (usePowerUp g pid .double_drop tc c1 c2 rc now).2.currentTurn
        = getNextPlayer g) ∧
    ((g.board.getD c1 []).length < 6 →
      ((makeMove g pid c1 now).2.board.getD c2 []).length < 6 →
      (usePowerUp g pid .double_drop tc c1 c2 rc now).2.currentTurn
        = getNextPlayer (makeMove g pid c1 now).2) := by
  refine ⟨⟨?_, ?_, ?_, ?_⟩, ?_, ?_, ?_, ?_⟩
  · rw [usePowerUp_column_bomb_eq]
  · rw [usePowerUp_gravity_flip_eq]
  · by_cases hne : 0 < (g.board.getD rc []).length
    · rw [usePowerUp_undo_pop_eq g pid tc c1 c2 rc now hne]
    · rw [usePowerUp_undo_noop_eq g pid tc c1 c2 rc now hne]
  · rw [usePowerUp_column_block_eq]
  · intro hf1 hf2
    rw [usePowerUp_double_drop_eq, makeMove_full g pid c1 now hf1,
      makeMove_full g pid c2 now hf2]
  · intro hs1 hf2
    rw [usePowerUp_double_drop_eq, makeMove_space g pid c1 now (by omega)]
    rw [makeMove_full _ pid c2 now ?_]
    · rw [makeMove_space g pid c1 now (by omega)] at hf2
      exact hf2
  · intro hf1 hs2
    rw [usePowerUp_double_drop_eq, makeMove_full g pid c1 now hf1]
    show (makeMove g pid c2 now).2.currentTurn = getNextPlayer g
    rw [makeMove_space g pid c2 now (by omega)]
  · intro hs1 hs2
    rw [usePowerUp_double_drop_eq,
      makeMove_space _ pid c2 now (by omega)]

/-- C4 witness: on concrete games — `column_bomb` advances zero times; on
`gFullCol2`, `double_drop` into the full column twice advances zero times,
into the empty column 0 then the full column 2 advances once (to player 2),
as does the reverse order full column 2 then empty column 0; on the fresh
game both sub-drops land and the turn advances twice (back to player 1). -/
theorem power_up_turn_advancement_witness :
    (usePowerUp gEmpty "p2" .column_bomb 4 0 0 0 1).2.currentTurn = "p1" ∧
    (usePowerUp gFullCol2 "p1" .double_drop 0 2 2 0 1).2.currentTurn = "p1" ∧
    (usePowerUp gFullCol2 "p1" .double_drop 0 0 2 0 1).2.currentTurn = "p2" ∧
    (usePowerUp gFullCol2 "p1" .double_drop 0 2 0 0 1).2.currentTurn = "p2" ∧
    (usePowerUp gEmpty "p1" .double_drop 0 0 0 0 1).2.currentTurn = "p1" := by
  refine ⟨?_, ?_, ?_, ?_, ?_⟩
  · exact ((power_up_turn_advancement gEmpty "p2" 4 0 0 0 1).1.1).trans (by decide)
  · exact ((power_up_turn_advancement gFullCol2 "p1" 0 2 2 0 1).2.1
      (by decide) (by decide))
  · exact ((power_up_turn_advancement gFullCol2 "p1" 0 0 2 0 1).2.2.1
      (by decide) (by decide)).trans (by decide)
  · exact ((power_up_turn_advancement gFullCol2 "p1" 0 2 0 0 1).2.2.2.1
      (by decide) (by decide)).trans (by decide)
  · exact ((power_up_turn_advancement gEmpty "p1" 0 0 0 0 1).2.2.2.2
      (by decide) (by decide)).trans (by decide)

/-- The id of the j-th seated player (seating order = list order), or the
default id past the end. -/
def idAt (ps : List Player) (j : Nat) : String :=
  ((ps.get? j).getD ⟨"", "", ""⟩).id

/-- `idAt` agrees with positional access for an in-range seat index. -/
theorem idAt_eq_get (ps : List Player) (j : Nat) (hj : j < ps.length) :
    idAt ps j = (ps.get ⟨j, hj⟩).id := by
  rw [idAt, List.get?_eq_get hj, Option.getD_some]

/-- With pairwise distinct player ids, `findIndexById` recovers the seat
index of a seated player. -/
theorem findIndexById_idAt (ps : List Player) (i : Nat)
    (hi : i < ps.length) (hnd : (ps.map Player.id).Nodup) :
    findIndexById ps (idAt ps i) = (i : Int) := by
  induction ps generalizing i with
  | nil => simp at hi
  | cons p rest ih =>
    have hnd' : (p.id :: rest.map Player.id).Nodup := by simpa using hnd
    obtain ⟨hhead, htail⟩ := List.nodup_cons.mp hnd'
    cases i with
    | zero => simp [findIndexById, idAt]
    | succ i =>
      have hi' : i < rest.length := by simpa using hi
      have hid : idAt (p :: rest) (i + 1) = idAt rest i := by
        simp [idAt]
      have hmem : idAt rest i ∈ rest.map Player.id := by
        rw [idAt_eq_get rest i hi']
        exact List.mem_map_of_mem Player.id (rest.get_mem i hi')
      have hpne : ¬ p.id = idAt rest i := fun he => hhead (he ▸ hmem)
      rw [hid]
      simp only [findIndexById]
      rw [if_neg hpne, ih i hi' htail, if_neg (by omega)]
      omega

/-- With distinct ids, the next-player computation maps the i-th seated
player to the ((i+1) mod N)-th seated player. -/
theorem nextIdOf_idAt (ps : List Player) (i : Nat) (hi : i < ps.length)
    (hnd : (ps.map Player.id).Nodup) :
    nextIdOf ps (idAt ps i) = idAt ps ((i + 1) % ps.length) := by
  simp only [nextIdOf]
  rw [findIndexById_idAt ps i hi hnd]
  have hcast : ((i : Int) + 1) % (ps.length : Int)
      = (((i + 1) % ps.length : Nat) : Int) := by
    rw [Int.natCast_mod]
    push_cast
    ring_nf
  rw [hcast, Int.toNat_natCast]
  rfl

/-- Iterating the next-player computation k times moves the i-th seated
player to the ((i+k) mod N)-th seated player. -/
theorem nextIdOf_iterate (ps : List Player) (hnd : (ps.map Player.id).Nodup)
    (k : Nat) :
    ∀ i, i < ps.length →
      (nextIdOf ps)^[k] (idAt ps i) = idAt ps ((i + k) % ps.length) := by
  induction k with
  | zero =>
    intro i hi
    rw [Function.iterate_zero_apply, Nat.add_zero, Nat.mod_eq_of_lt hi]
  | succ k ih =>
    intro i hi
    have hN0 : 0 < ps.length := lt_of_le_of_lt (Nat.zero_le i) hi
    calc (nextIdOf ps)^[k + 1] (idAt ps i)
        = (nextIdOf ps)^[k] (nextIdOf ps (idAt ps i)) :=
          Function.iterate_succ_apply _ _ _
      _ = (nextIdOf ps)^[k] (idAt ps ((i + 1) % ps.length)) := by
          rw [nextIdOf_idAt ps i hi hnd]
      _ = idAt ps (((i + 1) % ps.length + k) % ps.length) :=
          ih _ (Nat.mod_lt _ hN0)
      _ = idAt ps ((i + (k + 1)) % ps.length) := by
          rw [Nat.mod_add_mod, (by omega : i + 1 + k = i + (k + 1))]

/-- C3: with N ≥ 2 seated players with pairwise distinct ids, if the current
turn holder is the i-th seated player then `getNextPlayer` yields the
((i+1) mod N)-th seated player, and iterating the next-player computation N
times returns to the same player, so `currentTurn` cycles through the
seating order. -/
theorem turn_rotation_round_robin (g : Game) (i : Nat)
    (_hN : 2 ≤ g.players.length)
    (hnd : (g.players.map Player.id).Nodup)
    (hi : i < g.players.length)
    (hct : g.currentTurn = idAt g.players i) :
    getNextPlayer g = idAt g.players ((i + 1) % g.players.length) ∧
    (nextIdOf g.players)^[g.players.length] g.currentTurn = g.currentTurn := by
  constructor
  · show nextIdOf g.players g.currentTurn = _
    rw [hct, nextIdOf_idAt _ _ hi hnd]
  · rw [hct, nextIdOf_iterate _ hnd _ i hi, Nat.add_mod_right,
      Nat.mod_eq_of_lt hi]

/-- A three-player demo game whose turn holder is the second seated player. -/
def gThree : Game := demoGame [[], [], [], [], [], [], []] "p2" [pA, pB, pC] 0

/-- C3 witness: in a three-player room where player 2 (seat index 1) holds
the turn, the next player is seat (1+1) mod 3 = 2, and three rotations come
back to player 2. -/
theorem turn_rotation_round_robin_witness :
    2 ≤ gThree.players.length ∧
    gThree.currentTurn = idAt gThree.players 1 ∧
    getNextPlayer gThree = idAt gThree.players ((1 + 1) % gThree.players.length) ∧
    (nextIdOf gThree.players)^[gThree.players.length] gThree.currentTurn
      = gThree.currentTurn := by
  refine ⟨by decide, by decide, ?_⟩
  exact turn_rotation_round_robin gThree 1 (by decide) (by decide) (by decide)
    (by decide)

/-- A fresh two-player demo game that has passed the simulated game-over
threshold (31 events) while its board is still completely empty. -/
def gOver : Game := demoGame [[], [], [], [], [], [], []] "p1" [pA, pB] 31

/-- C5 counterexample: on `gOver` the simulated game-over check reports
winner "p1" with a horizontal line through (0,0)..(3,0), yet every one of
those four cells is unoccupied — the reported coordinates are not owned by
the declared winner. -/
theorem game_over_ownership_counterexample :
    (checkGameOver gOver 0 0 0 0 0).1
      = some ⟨"p1", "horizontal", [(0, 0), (1, 0), (2, 0), (3, 0)]⟩ ∧
    cellOwner gOver 0 0 = none ∧
    cellOwner gOver 1 0 = none ∧
    cellOwner gOver 2 0 = none ∧
    cellOwner gOver 3 0 = none := by
  decide

/-- C5 amended: every game-over record fabricated by `checkGameOver` names
the id of a seated player (never the draw sentinel), a win type from the
four-element catalog, and exactly 4 coordinates forming a contiguous line in
the direction belonging to the declared type — where the `diagonal_rising`
pattern descends in row as the column grows and `diagonal_falling` ascends —
but the coordinates carry no ownership guarantee: the winner, type and line
are drawn independently of the board. -/
theorem game_over_record_shape (g : Game) (now wI tI sc sr : Nat)
    (hfire : g.eventCount > 30 ∨ now - g.startTime > 5 * 60 * 1000)
    (hw : wI < g.players.length) (ht : tI < 4) :
    ∃ w : WinRec,
      (checkGameOver g now wI tI sc sr).1 = some w ∧
      (checkGameOver g now wI tI sc sr).2.gameOver = true ∧
      w.winner = idAt g.players wI ∧
      w.winner ∈ g.players.map Player.id ∧
      w.winType ∈ ["horizontal", "vertical", "diagonal_rising",
        "diagonal_falling"] ∧
      w.positions.length = 4 ∧
      (w.winType = "horizontal" →
        w.positions = [(sc, sr), (sc + 1, sr), (sc + 2, sr), (sc + 3, sr)]) ∧
      (w.winType = "vertical" →
        w.positions = [(sc, sr), (sc, sr + 1), (sc, sr + 2), (sc, sr + 3)]) ∧
      (w.winType = "diagonal_rising" →
        w.positions
          = [(sc, sr + 3), (sc + 1, sr + 2), (sc + 2, sr + 1), (sc + 3, sr)]) ∧
      (w.winType = "diagonal_falling" →
        w.positions
          = [(sc, sr), (sc + 1, sr + 1), (sc + 2, sr + 2), (sc + 3, sr + 3)]) := by
  have hmem : idAt g.players wI ∈ g.players.map Player.id := by
    rw [idAt_eq_get g.players wI hw]
    exact List.mem_map_of_mem Player.id (g.players.get_mem wI hw)
  simp only [checkGameOver]
  rw [if_pos hfire]
  refine ⟨_, rfl, rfl, rfl, hmem, ?_⟩
  interval_cases tI <;>
    simp [idAt, List.range_succ]

/-- C5 witness for the amended statement: the record fabricated on `gOver`
with win-type index 2 is a diagonal_rising line from start cell (1,1),
descending in row as the column grows. -/
theorem game_over_record_shape_witness :
    gOver.eventCount > 30 ∧
    ∃ w : WinRec,
      (checkGameOver gOver 0 0 2 1 1).1 = some w ∧
      (checkGameOver gOver 0 0 2 1 1).2.gameOver = true ∧
      w.winner = idAt gOver.players 0 ∧
      w.winner ∈ gOver.players.map Player.id ∧
      w.winType ∈ ["horizontal", "vertical", "diagonal_rising",
        "diagonal_falling"] ∧
      w.positions.length = 4 ∧
      (w.winType = "horizontal" →
        w.positions = [(1, 1), (1 + 1, 1), (1 + 2, 1), (1 + 3, 1)]) ∧
      (w.winType = "vertical" →
        w.positions = [(1, 1), (1, 1 + 1), (1, 1 + 2), (1, 1 + 3)]) ∧
      (w.winType = "diagonal_rising" →
        w.positions
          = [(1, 1 + 3), (1 + 1, 1 + 2), (1 + 2, 1 + 1), (1 + 3, 1)]) ∧
      (w.winType = "diagonal_falling" →
        w.positions
          = [(1, 1), (1 + 1, 1 + 1), (1 + 2, 1 + 2), (1 + 3, 1 + 3)]) :=
  ⟨by decide,
    game_over_record_shape gOver 0 0 2 1 1 (Or.inl (by decide)) (by decide)
      (by decide)⟩

/-! ## Frontend: `WebSocketService.ts` -/

/-- The readyState constant `WebSocket.OPEN`. -/
def WS_OPEN : Nat := 1

/-- The browser socket as `send` observes it: its readyState, and whether
serialising and handing the message to it succeeds (`socket.send` inside the
try block completing without throwing). -/
structure Socket where
  readyState : Nat
  sendSucceeds : Bool
deriving DecidableEq

/-- The `WebSocketService` fields read or written by `send` and
`attemptReconnect`. -/
structure WSService where
  socket : Option Socket
  isReconnecting : Bool
  autoReconnect : Bool
  reconnectAttempts : Nat
  maxReconnectAttempts : Nat
deriving DecidableEq

/-- The two error classes passed to the registered error handlers. -/
inductive WSError where
  | connectionError (message : String)
  | messageError (message : String)
deriving DecidableEq

/-- `attemptReconnect`: a no-op while already reconnecting; otherwise sets
the reconnecting flag when auto-reconnect is on and attempts remain
(scheduling the delayed reconnect), or notifies the error handlers that the
maximum number of attempts is exhausted.  Returns the updated service state
and the errors handed to the error handlers. -/
def attemptReconnect (ws : WSService) : WSService × List WSError :=
  if ws.isReconnecting then (ws, [])
  else if ws.autoReconnect ∧ ws.reconnectAttempts < ws.maxReconnectAttempts then
    ({ ws with isReconnecting := true }, [])
  else if ws.reconnectAttempts ≥ ws.maxReconnectAttempts then
    (ws, [WSError.connectionError "Maximum reconnection attempts reached"])
  else (ws, [])

/-- The else-branch of `send` (no socket, or socket not OPEN): notify the
error handlers, kick off a reconnect attempt when allowed, return false. -/
def wsSendNotConnected (ws : WSService) : Bool × List WSError × WSService :=
  let r := if ¬ ws.isReconnecting ∧ ws.autoReconnect
    then attemptReconnect ws else (ws, [])
  (false,
    WSError.connectionError "Cannot send message - WebSocket is not connected"
      :: r.2,
    r.1)

/-- `WebSocketService.send`: when a socket exists and is OPEN, serialise and
hand the message to it, returning true; a failure inside that try block is
caught, reported to the error handlers and turned into false; when no open
socket exists, report a connection error, optionally start a reconnect
attempt, and return false.  The components are the returned boolean, the
errors handed to the error handlers, and the service state afterwards. -/
def wsSend (ws : WSService) : Bool × List WSError × WSService :=
  match ws.socket with
  | some s =>
    if s.readyState = WS_OPEN then
      if s.sendSucceeds then (true, [], ws)
      else (false, [WSError.messageError "Failed to send message"], ws)
    else wsSendNotConnected ws
  | none => wsSendNotConnected ws

/-- C10: `send` is total (it never raises): it returns true exactly when a
socket exists, is in the OPEN state and the serialised message was handed to
it without the inner send throwing; in every other case it returns false and
the registered error handlers are notified with at least one error. -/
theorem send_never_throws (ws : WSService) :
    ((wsSend ws).1 = true ↔
      ∃ s, ws.socket = some s ∧ s.readyState = WS_OPEN ∧
        s.sendSucceeds = true) ∧
    ((wsSend ws).1 = false → (wsSend ws).2.1 ≠ []) := by
  constructor
  · cases hs : ws.socket with
    | none => simp [wsSend, hs, wsSendNotConnected]
    | some s =>
      by_cases hr : s.readyState = WS_OPEN
      · by_cases hss : s.sendSucceeds
        · simp [wsSend, hs, hr, hss]
        · simp [wsSend, hs, hr, hss]
      · simp [wsSend, hs, hr, wsSendNotConnected]
  · intro hfalse
    cases hs : ws.socket with
    | none => simp [wsSend, hs, wsSendNotConnected]
    | some s =>
      by_cases hr : s.readyState = WS_OPEN
      · by_cases hss : s.sendSucceeds
        · rw [wsSend] at hfalse
          simp [hs, hr, hss] at hfalse
        · simp [wsSend, hs, hr, hss]
      · simp [wsSend, hs, hr, wsSendNotConnected]

/-- A service with no socket at all. -/
def wsNone : WSService := ⟨none, false, true, 0, 5⟩

/-- C10 witness: with no socket, `send` returns false and the error handlers
are notified. -/
theorem send_never_throws_witness :
    (wsSend wsNone).1 = false ∧ (wsSend wsNone).2.1 ≠ [] :=
  ⟨by decide, (send_never_throws wsNone).2 (by decide)⟩

/-! ## Frontend: `useGame.ts` -/

/-- The frontend `Room` record (from the REST API types). -/
structure RoomC where
  id : String
  name : String
  players : List Player
  max_players : Nat
  is_active : Bool
  current_turn : Option String
  random_events_enabled : Bool
deriving DecidableEq

/-- A power-up of the client inventory view. -/
structure PlayerPowerUp where
  id : String
  name : String
  description : String
  remainingUses : Int
deriving DecidableEq

/-- One rendered board cell. -/
structure BoardCell where
  playerId : Option String
  row : Nat
  column : Nat
deriving DecidableEq

/-- A random event as displayed by the client. -/
structure RandomEventC where
  id : String
  name : String
  description : String
  effect : String
  duration : Nat
  activeUntil : Nat
deriving DecidableEq

/-- The client `winState` record. -/
structure WinStateC where
  winner : Option String
  winType : Option String
  positions : Option (List (Nat × Nat))
deriving DecidableEq

/-- One chat / system message of the client state. -/
structure ChatMsgC where
  id : String
  playerId : String
  message : String
  timestamp : Nat
deriving DecidableEq

/-- The client connection-state tag. -/
inductive ConnState where
  | connected
  | disconnected
  | connecting
  | reconnecting
  | failed
deriving DecidableEq

/-- The literal error strings the `makeMove` / `usePowerUp` callbacks of
`useGame.ts` store in `gameState.error`, as an enumeration: in order, the
not-your-turn message of `makeMove`, the disconnected message shared by both
callbacks, the failed-to-send-move message, the no-uses-left message, the
power-ups-only-during-your-turn message, and the failed-to-use-power-up
message. -/
inductive ClientError where
  | notYourTurnMove
  | disconnectedFromServer
  | moveSendFailed
  | noUsesRemaining
  | notYourTurnPowerUp
  | powerUpSendFailed
deriving DecidableEq

/-- The client `GameState` of `useGame.ts`. -/
structure ClientState where
  room : Option RoomC
  player : Option Player
  isConnected : Bool
  isMyTurn : Bool
  board : List (Nat × List BoardCell)
  powerUps : List (String × PlayerPowerUp)
  activeEvents : List RandomEventC
  isGravityFlipped : Bool
  winState : WinStateC
  messages : List ChatMsgC
  error : Option ClientError
  connectionState : ConnState
  turnTimeLimit : Nat
  turnStartTime : Nat
  remainingTime : Nat
deriving DecidableEq

/-- The `makeMove` callback of `useGame.ts`: reject with the not-your-turn
error when it is not this player's turn, reject with the disconnected error
when the socket is down, otherwise send the move message over the
WebSocket service and report a send failure as an error.  The components are
the returned boolean, the updated client state and the updated service.
The column number only feeds the payload of the sent message, which the
service model does not retain. -/
def clientMakeMove (s : ClientState) (ws : WSService) (_column : Nat) :
    Bool × ClientState × WSService :=
  if ¬ s.isMyTurn then
    (false, { s with error := some ClientError.notYourTurnMove }, ws)
  else if ¬ s.isConnected then
    (false, { s with error := some ClientError.disconnectedFromServer }, ws)
  else
    let r := wsSend ws
    if r.1 then (true, s, r.2.2)
    else (false, { s with error := some ClientError.moveSendFailed }, r.2.2)

/-- The `usePowerUp` callback of `useGame.ts`: reject with the no-uses-left
error when the inventory has no entry for the power-up or its remaining-uses
count is not positive; then the same turn / connection / send checks as
`makeMove`. -/
def clientUsePowerUp (s : ClientState) (ws : WSService) (powerUpId : String) :
    Bool × ClientState × WSService :=
  match (s.powerUps.find? (fun kv => kv.1 == powerUpId)).map Prod.snd with
  | none => (false, { s with error := some ClientError.noUsesRemaining }, ws)
  | some pu =>
  if pu.remainingUses ≤ 0 then
    (false, { s with error := some ClientError.noUsesRemaining }, ws)
  else if ¬ s.isMyTurn then
    (false, { s with error := some ClientError.notYourTurnPowerUp }, ws)
  else if ¬ s.isConnected then
    (false, { s with error := some ClientError.disconnectedFromServer }, ws)
  else
    let r := wsSend ws
    if r.1 then (true, s, r.2.2)
    else (false, { s with error := some ClientError.powerUpSendFailed }, r.2.2)

/-- C6: validation failures are atomic on the client: a move attempted when
it is not the requesting player's turn, and a power-up use whose
remaining-uses count is not positive, are rejected synchronously (the
callback returns false and nothing is sent — the WebSocket service is
untouched) and the whole game state is unchanged except for the stored error
message. -/
theorem validation_failures_only_set_error (s : ClientState) (ws : WSService)
    (column : Nat) (powerUpId : String) :
    (s.isMyTurn = false →
      clientMakeMove s ws column
        = (false, { s with error := some ClientError.notYourTurnMove }, ws)) ∧
    (∀ pu, s.powerUps.find? (fun kv => kv.1 == powerUpId) = some pu →
      pu.2.remainingUses ≤ 0 →
      clientUsePowerUp s ws powerUpId
        = (false, { s with error := some ClientError.noUsesRemaining }, ws)) := by
  constructor
  · intro h
    simp [clientMakeMove, h]
  · intro pu hfind hle
    simp [clientUsePowerUp, hfind, hle]

/-- A connected client state where it is not this player's turn and the only
inventory entry, double_drop, has zero remaining uses. -/
def sIdle : ClientState :=
  ⟨none, none, true, false, [],
    [("double_drop",
      ⟨"double_drop", "Double Drop", "Drop two discs in a single turn", 0⟩)],
    [], true, ⟨none, none, none⟩, [], none, ConnState.connected, 30, 0, 30⟩

/-- C6 witness: on `sIdle` both validation failures leave every field but
the error untouched. -/
theorem validation_failures_only_set_error_witness :
    clientMakeMove sIdle wsNone 3
      = (false, { sIdle with error := some ClientError.notYourTurnMove },
          wsNone) ∧
    clientUsePowerUp sIdle wsNone "double_drop"
      = (false, { sIdle with error := some ClientError.noUsesRemaining },
          wsNone) :=
  ⟨(validation_failures_only_set_error sIdle wsNone 3 "double_drop").1 rfl,
    (validation_failures_only_set_error sIdle wsNone 3 "double_drop").2
      ("double_drop",
        ⟨"double_drop", "Double Drop", "Drop two discs in a single turn", 0⟩)
      (by decide) (by decide)⟩

/-! ## Coordinator turn timeout (spec-modelled) -/

/-- Modelled from the spec: the room state the coordinator timeout action
reads — seated players, the current turn holder, and the turn-timer start.
The backend coordinator service holding this state is not among the sources
under verification; only the client-side rendering of its broadcast exists
in `useGame.ts`. -/
structure CoordRoom where
  players : List Player
  currentTurn : String
  turnStartTime : Nat
deriving DecidableEq

/-- Modelled from the spec: the coordinator `handle_turn_timeout` action
(backend not among the sources).  Spec §4.1/§5: it forces a turn advance
without placing a disc and resets the turn timer, but "a timeout action must
check it is still the `current_turn` holder it was scheduled for before
acting" — when the turn has already moved on, it acts as a no-op.  Turn
advance uses the same round-robin rule as moves. -/
def handleTurnTimeout (r : CoordRoom) (scheduledFor : String) (now : Nat) :
    CoordRoom :=
  if r.currentTurn = scheduledFor then
    { r with
        currentTurn := nextIdOf r.players r.currentTurn
        turnStartTime := now }
  else r

/-- C7: a turn timeout that fires after the turn has already legally
advanced (the scheduled player no longer holds `current_turn`) is a no-op:
the room state is returned unchanged. -/
theorem stale_turn_timeout_noop (r : CoordRoom) (scheduledFor : String)
    (now : Nat) (h : r.currentTurn ≠ scheduledFor) :
    handleTurnTimeout r scheduledFor now = r := by
  simp [handleTurnTimeout, h]

/-- A two-player coordinator room whose turn has advanced to player 2. -/
def rTwo : CoordRoom := ⟨[pA, pB], "p2", 0⟩

/-- C7 witness: a timeout scheduled for player 1 that fires after the turn
advanced to player 2 changes nothing. -/
theorem stale_turn_timeout_noop_witness :
    handleTurnTimeout rTwo "p1" 99 = rTwo :=
  stale_turn_timeout_noop rTwo "p1" 99 (by decide)

end Connect4
